import Mathlib

/-! Verification of the installation utilities of anomalib
(src/anomalib/cli/utils/installation.py).

Embedding conventions:
- Python strings are Lean String values (a String is a list of characters).
- Python values of type str-or-None are Option String.
- Raised exceptions are the error component of Except, with an inductive
  PyError distinguishing the raise sites.
- Results of I/O (get_cuda_version, platform.system) are passed in as
  explicit parameters, so every function is a pure function of its inputs.
- Python string comparison (used by min and max on version strings) is
  lexicographic on character code points; it is embedded below as pyListLt.
-/

namespace AnomalibInstall

/-- Exceptions raised in installation.py, one constructor per raise site,
plus keyError for a failing dict subscript. -/
inductive PyError where
  | shapeValueError
  | missingTorchValueError
  | torchVersionRequiredValueError
  | keyError
  | unsupportedOSRuntimeError
deriving DecidableEq

/-- Python string less-than: lexicographic comparison on code points. -/
def pyListLt : List Char → List Char → Bool
  | [], [] => false
  | [], _ :: _ => true
  | _ :: _, [] => false
  | a :: as, b :: bs =>
    if a.val < b.val then true
    else if b.val < a.val then false
    else pyListLt as bs

/-- Python a < b on strings. -/
def pyStrLt (a b : String) : Bool :=
  pyListLt a.data b.data

/-- Python a <= b on strings. -/
def pyStrLe (a b : String) : Bool :=
  !(pyStrLt b a)

/-- Python min(a, b): b when b < a, else a. -/
def pyMin (a b : String) : String :=
  if pyStrLt b a then b else a

/-- Python max(a, b): b when a < b, else a. -/
def pyMax (a b : String) : String :=
  if pyStrLt a b then b else a

/-- Python max over a list of strings (first element seeds the fold);
Python raises on an empty list, which never happens at the single use site. -/
def pyMaxList : List String → String
  | [] => ""
  | k :: ks => ks.foldl pyMax k

/-- One row of the AVAILABLE_TORCH_VERSIONS table. -/
structure TorchInfo where
  torchvision : String
  cuda : String × String
deriving DecidableEq

/-- The static compatibility table of installation.py. -/
def AVAILABLE_TORCH_VERSIONS : List (String × TorchInfo) :=
  [("2.0.0", ⟨"0.15.1", ("11.7", "11.8")⟩),
   ("2.0.1", ⟨"0.15.2", ("11.7", "11.8")⟩),
   ("2.1.1", ⟨"0.16.1", ("11.8", "12.1")⟩),
   ("2.1.2", ⟨"0.16.2", ("11.8", "12.1")⟩),
   ("2.2.0", ⟨"0.16.2", ("11.8", "12.1")⟩)]

/-- Dict subscript AVAILABLE_TORCH_VERSIONS[v], as an Option. -/
def lookupTorch (version : String) : Option TorchInfo :=
  AVAILABLE_TORCH_VERSIONS.lookup version

/-- Python max(AVAILABLE_TORCH_VERSIONS.keys()). -/
def maxAvailableTorchVersion : String :=
  pyMaxList (AVAILABLE_TORCH_VERSIONS.map Prod.fst)

/-- A pkg_resources Requirement: a package name (the source reads the
attribute holding the raw project name) and its (operator, version) pairs. -/
structure Requirement where
  name : String
  specs : List (String × String)
deriving DecidableEq

/-- str(requirement): the name followed by the comma-joined
operator-version pairs. -/
def reqStr (r : Requirement) : String :=
  r.name ++ String.intercalate "," (r.specs.map fun p => p.1 ++ p.2)

/-- Python truthiness of a str-or-None value: None and "" are falsy. -/
def strTruthy : Option String → Bool
  | none => false
  | some s => !(s == "")

/-- The for-loop of parse_requirements: threads the pair
(torch_requirement, other_requirements) through the requirement list. -/
def parseLoop : List Requirement → Option String × List String → Option String × List String
  | [], acc => acc
  | r :: rest, (tq, others) =>
    if r.name = "torch" then parseLoop rest (some (reqStr r), others)
    else parseLoop rest (tq, others ++ [reqStr r])

/-- parse_requirements: splits the list into the torch requirement and the
deduplicated other requirements. Python list(set(xs)) has an unspecified
order; it is embedded as List.dedup, which drops duplicates. -/
def parse_requirements (requirements : List Requirement) (skip_torch : Bool) :
    Except PyError (Option String × List String) :=
  let res := parseLoop requirements (none, [])
  if !skip_torch && !(strTruthy res.1) then .error .missingTorchValueError
  else .ok (res.1, res.2.dedup)

/-- update_cuda_version_with_available_torch_cuda_build: clamps the
detected CUDA version into [min, max] of the torch version's cuda tuple.
The dict subscript fails with a KeyError when torch_version is not a key. -/
def update_cuda_version_with_available_torch_cuda_build
    (cuda_version torch_version : String) : Except PyError String :=
  match lookupTorch torch_version with
  | none => .error .keyError
  | some info =>
    let max_supported_cuda := pyMax info.cuda.1 info.cuda.2
    let min_supported_cuda := pyMin info.cuda.1 info.cuda.2
    .ok (pyMax (pyMin cuda_version max_supported_cuda) min_supported_cuda)

/-- Python str.replace for a single-character pattern: every occurrence of
pat is replaced by rep, scanning left to right. -/
def pyReplaceChar (pat : Char) (rep : List Char) : List Char → List Char
  | [] => []
  | c :: cs =>
    if c = pat then rep ++ pyReplaceChar pat rep cs
    else c :: pyReplaceChar pat rep cs

/-- get_cuda_suffix: "cu" followed by the version with the dots removed. -/
def get_cuda_suffix (cuda_version : String) : String :=
  "cu" ++ String.mk (pyReplaceChar '.' [] cuda_version.data)

/-- get_hardware_suffix. detected_cuda stands for the result of the I/O
function get_cuda_version. -/
def get_hardware_suffix (detected_cuda : Option String)
    (with_available_torch_build : Bool) (torch_version : Option String) :
    Except PyError String :=
  match detected_cuda with
  | some cv =>
    if cv == "" then .ok "cpu"
    else if with_available_torch_build then
      match torch_version with
      | none => .error .torchVersionRequiredValueError
      | some tv =>
        match update_cuda_version_with_available_torch_cuda_build cv tv with
        | .error e => .error e
        | .ok cv2 => .ok (get_cuda_suffix cv2)
    else .ok (get_cuda_suffix cv)
  | none => .ok "cpu"

/-- Python version.startswith(("2.1", "2.2")). -/
def startswith21or22 (version : String) : Bool :=
  "2.1".data.isPrefixOf version.data || "2.2".data.isPrefixOf version.data

/-- Python hardware_suffix or fallback, for a str-or-None hardware_suffix:
the fallback is used when the value is None or the empty string. -/
def pyOr (x : Option String) (y : Except PyError String) : Except PyError String :=
  match x with
  | some s => if s == "" then y else .ok s
  | none => y

/-- The updated version string built inside add_hardware_suffix_to_torch:
the suffix is appended unless the version starts with "2.1" or "2.2". -/
def updatedVersionStr (version suffix : String) : String :=
  if startswith21or22 version then version else version ++ "+" ++ suffix

/-- The for-loop of add_hardware_suffix_to_torch: builds updated_specs,
threading the possibly reassigned hardware_suffix. -/
def addSuffixLoop (detected_cuda : Option String) (with_available_torch_build : Bool) :
    Option String → List (String × String) → Except PyError (List String)
  | _, [] => .ok []
  | hs, (operator, version) :: rest =>
    match pyOr hs (get_hardware_suffix detected_cuda with_available_torch_build (some version)) with
    | .error e => .error e
    | .ok s =>
      match addSuffixLoop detected_cuda with_available_torch_build (some s) rest with
      | .error e => .error e
      | .ok us => .ok ((operator ++ updatedVersionStr version s) :: us)

/-- add_hardware_suffix_to_torch: joins the updated specs after the loop;
zero specs yield the initial empty string, three or more raise ValueError. -/
def add_hardware_suffix_to_torch (requirement : Requirement)
    (hardware_suffix : Option String) (with_available_torch_build : Bool)
    (detected_cuda : Option String) : Except PyError String :=
  match addSuffixLoop detected_cuda with_available_torch_build hardware_suffix requirement.specs with
  | .error e => .error e
  | .ok updated_specs =>
    match updated_specs with
    | [] => .ok ""
    | [s1] => .ok (requirement.name ++ s1)
    | [s1, s2] => .ok (requirement.name ++ s1 ++ ", " ++ s2)
    | _ => .error .shapeValueError

/-- The spec-selection loop of get_torch_install_args: index of the first
spec whose operator contains "=", defaulting to 0. -/
def selectSpecIdx (specs : List (String × String)) : Nat :=
  match specs.findIdx? (fun p => p.1.data.contains '=') with
  | some i => i
  | none => 0

/-- specs[select_spec_idx]; the index is always in range at the use site,
so the default is never reached. -/
def selectedSpec (specs : List (String × String)) : String × String :=
  specs.getD (selectSpecIdx specs) (specs.headD ("", ""))

/-- The version-substitution step of get_torch_install_args: keep the
selected version when it is a table key, else fall back to the largest key. -/
def effectiveVersion (version : String) : String :=
  if (lookupTorch version).isSome then version else maxAvailableTorchVersion

/-- The Linux/Windows branch of get_torch_install_args after the hardware
suffix has been obtained: torch specifier, torchvision specifier and the
final argument list. -/
def torchInstallTail (requirement : Requirement) (operator version hardware_suffix : String)
    (detected_cuda : Option String) : Except PyError (List String) :=
  match add_hardware_suffix_to_torch requirement (some hardware_suffix) true detected_cuda with
  | .error e => .error e
  | .ok torch_version =>
    match lookupTorch version with
    | none => .error .keyError
    | some info =>
      let tvreq := "torchvision" ++ operator ++ info.torchvision
      let tvreq :=
        if !("0.16".data.isPrefixOf info.torchvision.data) then
          tvreq ++ "+" ++ hardware_suffix
        else tvreq
      .ok ["--extra-index-url", "https://download.pytorch.org/whl/" ++ hardware_suffix,
           torch_version, tvreq]

/-- The platform-dependent tail of get_torch_install_args, after the
version has been selected and substituted. sys stands for the result of
platform.system(). -/
def torchInstallArgsCore (requirement : Requirement) (operator version : String)
    (sys : String) (detected_cuda : Option String) : Except PyError (List String) :=
  if sys = "Linux" ∨ sys = "Windows" then
    match get_hardware_suffix detected_cuda true (some version) with
    | .error e => .error e
    | .ok hardware_suffix =>
      torchInstallTail requirement operator version hardware_suffix detected_cuda
  else if sys = "macos" ∨ sys = "Darwin" then .ok [reqStr requirement]
  else .error .unsupportedOSRuntimeError

/-- get_torch_install_args: requirements without version constraints are
returned verbatim; otherwise a spec is selected, the version substituted,
and the platform-dependent argument list built. -/
def get_torch_install_args (requirement : Requirement) (sys : String)
    (detected_cuda : Option String) : Except PyError (List String) :=
  match requirement.specs with
  | [] => .ok [reqStr requirement]
  | _ :: _ =>
    let sel := selectedSpec requirement.specs
    torchInstallArgsCore requirement sel.1 (effectiveVersion sel.2) sys detected_cuda

/-! Helper lemmas about the Python string order. -/

lemma pyListLt_irrefl (l : List Char) : pyListLt l l = false := by
  induction l with
  | nil => rfl
  | cons c cs ih => simp [pyListLt, ih]

lemma pyListLt_asymm {a b : List Char} (h : pyListLt a b = true) : pyListLt b a = false := by
  induction a generalizing b with
  | nil =>
    cases b with
    | nil => simp [pyListLt] at h
    | cons d ds => simp [pyListLt]
  | cons c cs ih =>
    cases b with
    | nil => simp [pyListLt] at h
    | cons d ds =>
      by_cases h1 : c.val < d.val
      · have h2 : ¬ d.val < c.val := Nat.lt_asymm h1
        simp [pyListLt, h1, h2]
      · by_cases h2 : d.val < c.val
        · simp [pyListLt, h1, h2] at h
        · simp only [pyListLt, if_neg h1, if_neg h2] at h
          simp only [pyListLt, if_neg h1, if_neg h2]
          exact ih h

lemma pyStrLt_irrefl (s : String) : pyStrLt s s = false :=
  pyListLt_irrefl s.data

lemma pyStrLt_asymm {a b : String} (h : pyStrLt a b = true) : pyStrLt b a = false :=
  pyListLt_asymm h

lemma pyStrLe_refl (s : String) : pyStrLe s s = true := by
  simp [pyStrLe, pyStrLt_irrefl]

lemma pyStrLe_pyMax_right (x m : String) : pyStrLe m (pyMax x m) = true := by
  unfold pyMax
  by_cases h : pyStrLt x m = true
  · simp [h, pyStrLe_refl]
  · simp only [Bool.not_eq_true] at h
    simp [h, pyStrLe]

lemma pyMin_le_right (c m : String) : pyStrLe (pyMin c m) m = true := by
  unfold pyMin
  by_cases h : pyStrLt m c = true
  · simp [h, pyStrLe_refl]
  · simp [h, pyStrLe]

lemma pyMin_le_pyMax (a b : String) : pyStrLe (pyMin a b) (pyMax a b) = true := by
  unfold pyMin pyMax
  by_cases h1 : pyStrLt b a = true
  · have h2 : pyStrLt a b = false := pyStrLt_asymm h1
    simp [h1, h2, pyStrLe, pyStrLt_irrefl]
  · by_cases h2 : pyStrLt a b = true
    · simp [h1, h2, pyStrLe, pyStrLt_irrefl]
    · simp [h1, h2, pyStrLe, pyStrLt_irrefl]

lemma pyMax_le {x y m : String} (hx : pyStrLe x m = true) (hy : pyStrLe y m = true) :
    pyStrLe (pyMax x y) m = true := by
  unfold pyMax
  by_cases h : pyStrLt x y = true
  · simp [h, hy]
  · simp [h, hx]

/-! Helper lemmas about suffix construction. -/

lemma get_cuda_suffix_data (v : String) :
    (get_cuda_suffix v).data = 'c' :: 'u' :: v.data.filter (fun c => !(c == '.')) := by
  have hrep : ∀ l : List Char, pyReplaceChar '.' [] l = l.filter (fun c => !(c == '.')) := by
    intro l
    induction l with
    | nil => rfl
    | cons c cs ih =>
      by_cases h : c = '.' <;> simp [pyReplaceChar, List.filter_cons, h, ih]
  unfold get_cuda_suffix
  rw [String.data_append, hrep]
  rfl

lemma get_cuda_suffix_ne_empty (v : String) : get_cuda_suffix v ≠ "" := by
  intro h
  have hd := congrArg String.data h
  rw [get_cuda_suffix_data] at hd
  exact List.noConfusion hd

lemma update_ok {tv : String} {info : TorchInfo} (h : lookupTorch tv = some info) (cv : String) :
    update_cuda_version_with_available_torch_cuda_build cv tv =
      .ok (pyMax (pyMin cv (pyMax info.cuda.1 info.cuda.2)) (pyMin info.cuda.1 info.cuda.2)) := by
  unfold update_cuda_version_with_available_torch_cuda_build
  rw [h]

lemma get_hardware_suffix_none (wab : Bool) (tv : Option String) :
    get_hardware_suffix none wab tv = .ok "cpu" := rfl

lemma get_hardware_suffix_some (cv : String) (wab : Bool) (tv : Option String) :
    get_hardware_suffix (some cv) wab tv =
      (if cv == "" then .ok "cpu"
       else if wab then
         match tv with
         | none => .error .torchVersionRequiredValueError
         | some t =>
           match update_cuda_version_with_available_torch_cuda_build cv t with
           | .error e => .error e
           | .ok cv2 => .ok (get_cuda_suffix cv2)
       else .ok (get_cuda_suffix cv)) := rfl

lemma get_hardware_suffix_ne_empty {dc tv : Option String} {wab : Bool} {s : String}
    (h : get_hardware_suffix dc wab tv = .ok s) : s ≠ "" := by
  cases dc with
  | none =>
    rw [get_hardware_suffix_none] at h
    cases h
    decide
  | some cv =>
    rw [get_hardware_suffix_some] at h
    by_cases hcv : (cv == "") = true
    · rw [if_pos hcv] at h
      cases h
      decide
    · rw [if_neg hcv] at h
      cases wab with
      | false =>
        simp only [Bool.false_eq_true, if_false] at h
        cases h
        exact get_cuda_suffix_ne_empty cv
      | true =>
        simp only [if_true] at h
        cases tv with
        | none => cases h
        | some t =>
          have h2 : (match update_cuda_version_with_available_torch_cuda_build cv t with
              | Except.error e => Except.error e
              | Except.ok cv2 => Except.ok (get_cuda_suffix cv2)) = Except.ok s := h
          cases hu : update_cuda_version_with_available_torch_cuda_build cv t with
          | error e => rw [hu] at h2; cases h2
          | ok cv2 =>
            rw [hu] at h2
            cases h2
            exact get_cuda_suffix_ne_empty cv2

lemma get_hardware_suffix_false_ok (dc tv : Option String) :
    ∃ s, get_hardware_suffix dc false tv = .ok s := by
  cases dc with
  | none => exact ⟨"cpu", rfl⟩
  | some cv =>
    rw [get_hardware_suffix_some]
    by_cases hcv : (cv == "") = true
    · exact ⟨"cpu", by rw [if_pos hcv]⟩
    · exact ⟨get_cuda_suffix cv, by rw [if_neg hcv]; rfl⟩

lemma get_hardware_suffix_true_ok (dc : Option String) (tv : String)
    (info : TorchInfo) (h : lookupTorch tv = some info) :
    ∃ s, get_hardware_suffix dc true (some tv) = .ok s := by
  cases dc with
  | none => exact ⟨"cpu", rfl⟩
  | some cv =>
    rw [get_hardware_suffix_some]
    by_cases hcv : (cv == "") = true
    · exact ⟨"cpu", by rw [if_pos hcv]⟩
    · refine ⟨get_cuda_suffix (pyMax (pyMin cv (pyMax info.cuda.1 info.cuda.2)) (pyMin info.cuda.1 info.cuda.2)), ?_⟩
      rw [if_neg hcv, if_pos rfl]
      show (match update_cuda_version_with_available_torch_cuda_build cv tv with
        | Except.error e => Except.error e
        | Except.ok cv2 => Except.ok (get_cuda_suffix cv2)) = _
      rw [update_ok h cv]

/-! Helper lemmas about the add_hardware_suffix_to_torch loop. -/

lemma pyOr_false_ok (x dc : Option String) (v : String) :
    ∃ s, pyOr x (get_hardware_suffix dc false (some v)) = .ok s := by
  cases x with
  | none => exact get_hardware_suffix_false_ok dc (some v)
  | some s0 =>
    by_cases h : (s0 == "") = true
    · obtain ⟨s, hs⟩ := get_hardware_suffix_false_ok dc (some v)
      exact ⟨s, by rw [pyOr, if_pos h]; exact hs⟩
    · exact ⟨s0, by rw [pyOr, if_neg h]⟩

lemma addSuffixLoop_false_ok (dc : Option String) (hs : Option String)
    (specs : List (String × String)) :
    ∃ us, addSuffixLoop dc false hs specs = .ok us ∧ us.length = specs.length := by
  induction specs generalizing hs with
  | nil => exact ⟨[], rfl, rfl⟩
  | cons p rest ih =>
    obtain ⟨operator, version⟩ := p
    obtain ⟨s, hsy⟩ := pyOr_false_ok hs dc version
    obtain ⟨us, hus, hlen⟩ := ih (some s)
    refine ⟨(operator ++ updatedVersionStr version s) :: us, ?_, by simp [hlen]⟩
    simp only [addSuffixLoop, hsy, hus]

lemma addSuffixLoop_some (dc : Option String) (wab : Bool) (s : String)
    (hne : ¬ s = "") (specs : List (String × String)) :
    addSuffixLoop dc wab (some s) specs =
      .ok (specs.map fun p => p.1 ++ updatedVersionStr p.2 s) := by
  induction specs with
  | nil => rfl
  | cons p rest ih =>
    obtain ⟨operator, version⟩ := p
    have hor : pyOr (some s) (get_hardware_suffix dc wab (some version)) = .ok s := by
      rw [pyOr, if_neg (by simpa using hne)]
    simp only [addSuffixLoop, hor, ih, List.map_cons]

/-! Helper lemmas about parse_requirements. -/

lemma reqStr_torch_ne_empty (r : Requirement) (h : r.name = "torch") : reqStr r ≠ "" := by
  intro hc
  have hd := congrArg String.data hc
  rw [reqStr, String.data_append, h] at hd
  exact List.noConfusion hd

lemma parseLoop_fst_none (reqs : List Requirement) (h : ∀ r ∈ reqs, r.name ≠ "torch")
    (tq : Option String) (acc : List String) :
    (parseLoop reqs (tq, acc)).1 = tq := by
  induction reqs generalizing tq acc with
  | nil => rfl
  | cons r rest ih =>
    have hr : ¬ r.name = "torch" := h r (List.mem_cons_self r rest)
    rw [parseLoop, if_neg hr]
    exact ih (fun x hx => h x (List.mem_cons_of_mem r hx)) tq (acc ++ [reqStr r])

lemma parseLoop_fst_torch (reqs : List Requirement)
    (h : ∃ r ∈ reqs, r.name = "torch") (tq : Option String) (acc : List String) :
    ∃ r, r ∈ reqs ∧ r.name = "torch" ∧ (parseLoop reqs (tq, acc)).1 = some (reqStr r) := by
  induction reqs generalizing tq acc with
  | nil => obtain ⟨r, hr, _⟩ := h; exact absurd hr (List.not_mem_nil r)
  | cons r rest ih =>
    by_cases hr : r.name = "torch"
    · rw [parseLoop, if_pos hr]
      by_cases hrest : ∃ x ∈ rest, x.name = "torch"
      · obtain ⟨x, hx, hxn, hfst⟩ := ih hrest (some (reqStr r)) acc
        exact ⟨x, List.mem_cons_of_mem r hx, hxn, hfst⟩
      · push_neg at hrest
        refine ⟨r, List.mem_cons_self r rest, hr, ?_⟩
        exact parseLoop_fst_none rest hrest (some (reqStr r)) acc
    · rw [parseLoop, if_neg hr]
      obtain ⟨x, hx, hxn⟩ := h
      have hx' : x ∈ rest := by
        cases List.mem_cons.mp hx with
        | inl he => exact absurd (he ▸ hxn) hr
        | inr hm => exact hm
      obtain ⟨y, hy, hyn, hfst⟩ := ih ⟨x, hx', hxn⟩ tq (acc ++ [reqStr r])
      exact ⟨y, List.mem_cons_of_mem r hy, hyn, hfst⟩

lemma parseLoop_snd (reqs : List Requirement) (tq : Option String) (acc : List String) :
    (parseLoop reqs (tq, acc)).2 =
      acc ++ (reqs.filter (fun r => !(r.name == "torch"))).map reqStr := by
  induction reqs generalizing tq acc with
  | nil => simp [parseLoop]
  | cons r rest ih =>
    by_cases hr : r.name = "torch"
    · rw [parseLoop, if_pos hr]
      rw [ih (some (reqStr r)) acc]
      simp [List.filter_cons, hr]
    · rw [parseLoop, if_neg hr]
      rw [ih tq (acc ++ [reqStr r])]
      simp [List.filter_cons, hr]

lemma parse_requirements_eq (reqs : List Requirement) (skip : Bool) :
    parse_requirements reqs skip =
      (if !skip && !(strTruthy (parseLoop reqs (none, [])).1)
       then .error .missingTorchValueError
       else .ok ((parseLoop reqs (none, [])).1, (parseLoop reqs (none, [])).2.dedup)) := rfl

lemma get_torch_install_args_cons (r : Requirement) (sys : String) (dc : Option String)
    (h : r.specs ≠ []) :
    get_torch_install_args r sys dc =
      torchInstallArgsCore r (selectedSpec r.specs).1
        (effectiveVersion (selectedSpec r.specs).2) sys dc := by
  unfold get_torch_install_args
  cases hs : r.specs with
  | nil => exact absurd hs h
  | cons p rest => rfl

/-! Claim theorems. -/

/-- C1: for every torch_version that is a key of AVAILABLE_TORCH_VERSIONS and
every cuda_version string, update_cuda_version_with_available_torch_cuda_build
returns a value lying between the minimum and the maximum of that torch
version's supported CUDA tuple, in the string order the code uses for
min, max and clamping. -/
theorem claim1_negotiated_cuda_within_bounds (torch_version : String) (info : TorchInfo)
    (h : lookupTorch torch_version = some info) (cuda_version : String) :
    ∃ r, update_cuda_version_with_available_torch_cuda_build cuda_version torch_version = .ok r ∧
      pyStrLe (pyMin info.cuda.1 info.cuda.2) r = true ∧
      pyStrLe r (pyMax info.cuda.1 info.cuda.2) = true :=
  ⟨_, update_ok h cuda_version, pyStrLe_pyMax_right _ _,
    pyMax_le (pyMin_le_right _ _) (pyMin_le_pyMax _ _)⟩

/-- C1 witness: concrete instance at torch version 2.0.0 with detected CUDA 12.9. -/
theorem claim1_witness :
    ∃ r, update_cuda_version_with_available_torch_cuda_build "12.9" "2.0.0" = .ok r ∧
      pyStrLe (pyMin "11.7" "11.8") r = true ∧
      pyStrLe r (pyMax "11.7" "11.8") = true :=
  claim1_negotiated_cuda_within_bounds "2.0.0" ⟨"0.15.1", ("11.7", "11.8")⟩ (by decide) "12.9"

/-- C2: with the default arguments of add_hardware_suffix_to_torch, a
requirement with more than two version constraints raises the
malformed-shape ValueError, and one with at most two never does. -/
theorem claim2_shape_error_iff (requirement : Requirement)
    (hardware_suffix detected_cuda : Option String) :
    (2 < requirement.specs.length →
      add_hardware_suffix_to_torch requirement hardware_suffix false detected_cuda =
        .error .shapeValueError) ∧
    (requirement.specs.length ≤ 2 →
      add_hardware_suffix_to_torch requirement hardware_suffix false detected_cuda ≠
        .error .shapeValueError) := by
  obtain ⟨us, hus, hlen⟩ := addSuffixLoop_false_ok detected_cuda hardware_suffix requirement.specs
  unfold add_hardware_suffix_to_torch
  rw [hus]
  constructor
  · intro hgt
    rw [← hlen] at hgt
    cases us with
    | nil => simp at hgt
    | cons a t1 =>
      cases t1 with
      | nil => simp at hgt
      | cons b t2 =>
        cases t2 with
        | nil => simp at hgt
        | cons c t3 => rfl
  · intro hle
    rw [← hlen] at hle
    cases us with
    | nil => exact fun hcon => Except.noConfusion hcon
    | cons a t1 =>
      cases t1 with
      | nil => exact fun hcon => Except.noConfusion hcon
      | cons b t2 =>
        cases t2 with
        | nil => exact fun hcon => Except.noConfusion hcon
        | cons c t3 =>
          simp only [List.length_cons] at hle
          omega

/-- C2 witness: three constraints raise the shape error, two do not. -/
theorem claim2_witness :
    add_hardware_suffix_to_torch ⟨"torch", [(">=", "1.8.1"), ("<=", "1.9.1"), ("==", "1.8.2")]⟩
        none false none = .error .shapeValueError ∧
    add_hardware_suffix_to_torch ⟨"torch", [(">=", "1.8.1"), ("<=", "1.9.1")]⟩
        none false none ≠ .error .shapeValueError :=
  ⟨(claim2_shape_error_iff ⟨"torch", [(">=", "1.8.1"), ("<=", "1.9.1"), ("==", "1.8.2")]⟩
      none none).1 (by decide),
   (claim2_shape_error_iff ⟨"torch", [(">=", "1.8.1"), ("<=", "1.9.1")]⟩
      none none).2 (by decide)⟩

/-- C4: whenever CUDA detection yields no version, get_hardware_suffix
returns the CPU fallback suffix, for every with_available_torch_build and
torch_version. -/
theorem claim4_no_cuda_gives_cpu (with_available_torch_build : Bool)
    (torch_version : Option String) :
    get_hardware_suffix none with_available_torch_build torch_version = .ok "cpu" := rfl

/-- C7: get_cuda_suffix is a pure function of the version string: it
returns "cu" followed by the version with every dot removed, and equal
inputs give equal outputs. -/
theorem claim7_pure_suffix_of_version (cuda_version : String) :
    (get_cuda_suffix cuda_version).data =
      'c' :: 'u' :: cuda_version.data.filter (fun c => !(c == '.')) ∧
    (∀ other, other = cuda_version → get_cuda_suffix other = get_cuda_suffix cuda_version) :=
  ⟨get_cuda_suffix_data cuda_version, fun _ h => by rw [h]⟩

/-- C7 witness: concrete instance at CUDA version 11.8. -/
theorem claim7_witness : (get_cuda_suffix "11.8").data = ['c', 'u', '1', '1', '8'] :=
  ((claim7_pure_suffix_of_version "11.8").1).trans (by decide)

/-- C8: a requirement with no version constraints is returned verbatim by
get_torch_install_args on every host platform, with no index URL, no
torchvision specifier and no platform error. -/
theorem claim8_no_specs_verbatim (requirement : Requirement) (sys : String)
    (detected_cuda : Option String) (h : requirement.specs = []) :
    get_torch_install_args requirement sys detected_cuda = .ok [reqStr requirement] := by
  unfold get_torch_install_args
  rw [h]

/-- C8 witness: concrete instance on an arbitrary platform string. -/
theorem claim8_witness :
    get_torch_install_args ⟨"onnx", []⟩ "Plan9" none = .ok ["onnx"] :=
  (claim8_no_specs_verbatim ⟨"onnx", []⟩ "Plan9" none rfl).trans (by rfl)

/-- C3: parse_requirements raises the missing-dependency ValueError exactly
when skip_torch is false and no requirement in the list is named torch. -/
theorem claim3_missing_torch_iff (requirements : List Requirement) (skip_torch : Bool) :
    parse_requirements requirements skip_torch = .error .missingTorchValueError ↔
      (skip_torch = false ∧ ∀ r ∈ requirements, r.name ≠ "torch") := by
  rw [parse_requirements_eq]
  cases skip_torch with
  | true => simp
  | false =>
    by_cases h : ∀ r ∈ requirements, r.name ≠ "torch"
    · rw [parseLoop_fst_none requirements h none []]
      simp [strTruthy]
      exact h
    · push_neg at h
      obtain ⟨r0, hr0, hr0n⟩ := h
      obtain ⟨r1, hr1, hr1n, hfst⟩ := parseLoop_fst_torch requirements ⟨r0, hr0, hr0n⟩ none []
      rw [hfst]
      have hne : reqStr r1 ≠ "" := reqStr_torch_ne_empty r1 hr1n
      have hcond : (!false && !(strTruthy (some (reqStr r1)))) = false := by
        simp [strTruthy, hne]
      rw [hcond]
      apply iff_of_false
      · simp
      · rintro ⟨-, hall⟩
        exact hall r1 hr1 hr1n

/-- C5 counterexample: on an unsupported platform, a requirement with no
version constraints is returned verbatim and no RuntimeError is raised,
contradicting the claim as stated for every requirement. -/
theorem claim5_counterexample :
    get_torch_install_args ⟨"torch", []⟩ "Solaris" none = .ok ["torch"] ∧
    get_torch_install_args ⟨"torch", []⟩ "Solaris" none ≠ .error .unsupportedOSRuntimeError :=
  ⟨rfl, fun hcon => Except.noConfusion hcon⟩

/-- C5 amended: for every requirement with at least one version constraint,
if the host platform string is none of Linux, Windows, macos and Darwin,
get_torch_install_args fails with the unsupported-platform RuntimeError. -/
theorem claim5_amended_unsupported_platform (requirement : Requirement) (sys : String)
    (detected_cuda : Option String) (hspecs : requirement.specs ≠ [])
    (h1 : sys ≠ "Linux") (h2 : sys ≠ "Windows") (h3 : sys ≠ "macos") (h4 : sys ≠ "Darwin") :
    get_torch_install_args requirement sys detected_cuda = .error .unsupportedOSRuntimeError := by
  rw [get_torch_install_args_cons requirement sys detected_cuda hspecs]
  unfold torchInstallArgsCore
  rw [if_neg (by simp [h1, h2]), if_neg (by simp [h3, h4])]

/-- C5 witness: concrete instance with one constraint on Solaris. -/
theorem claim5_witness :
    get_torch_install_args ⟨"torch", [("==", "2.0.0")]⟩ "Solaris" none =
      .error .unsupportedOSRuntimeError :=
  claim5_amended_unsupported_platform ⟨"torch", [("==", "2.0.0")]⟩ "Solaris" none
    (by decide) (by decide) (by decide) (by decide) (by decide)

/-- C6 counterexample: with the non-empty suffix cu118 and the single
constraint ==2.1.1, the built specifier contains no plus sign at all, so
the suffix is not appended to every version, contradicting the claim. -/
theorem claim6_counterexample :
    add_hardware_suffix_to_torch ⟨"torch", [("==", "2.1.1")]⟩ (some "cu118") false none =
      .ok "torch==2.1.1" ∧
    ("torch==2.1.1".data.contains '+') = false :=
  ⟨rfl, by decide⟩

/-- C6 amended: with a non-empty suffix, the specifier built by
add_hardware_suffix_to_torch appends the suffix to exactly those versions
that do not start with 2.1 or 2.2, for one or two constraints. -/
theorem claim6_amended_suffix_placement (requirement : Requirement) (suffix : String)
    (wab : Bool) (detected_cuda : Option String) (hne : suffix ≠ "") :
    (∀ p1, requirement.specs = [p1] →
      add_hardware_suffix_to_torch requirement (some suffix) wab detected_cuda =
        .ok (requirement.name ++ (p1.1 ++ updatedVersionStr p1.2 suffix))) ∧
    (∀ p1 p2, requirement.specs = [p1, p2] →
      add_hardware_suffix_to_torch requirement (some suffix) wab detected_cuda =
        .ok (requirement.name ++ (p1.1 ++ updatedVersionStr p1.2 suffix) ++ ", " ++
             (p2.1 ++ updatedVersionStr p2.2 suffix))) := by
  constructor
  · intro p1 hs
    unfold add_hardware_suffix_to_torch
    rw [hs, addSuffixLoop_some detected_cuda wab suffix hne]
    rfl
  · intro p1 p2 hs
    unfold add_hardware_suffix_to_torch
    rw [hs, addSuffixLoop_some detected_cuda wab suffix hne]
    rfl

/-- C6 witness: the docstring example torch>=1.13.0, <=2.0.1 with suffix
cu121 gets the suffix on both versions. -/
theorem claim6_witness :
    add_hardware_suffix_to_torch ⟨"torch", [(">=", "1.13.0"), ("<=", "2.0.1")]⟩
        (some "cu121") false none = .ok "torch>=1.13.0+cu121, <=2.0.1+cu121" :=
  ((claim6_amended_suffix_placement ⟨"torch", [(">=", "1.13.0"), ("<=", "2.0.1")]⟩
      "cu121" false none (by decide)).2 (">=", "1.13.0") ("<=", "2.0.1") rfl).trans (by rfl)

/-- C9: when the selected version is not a table key, get_torch_install_args
does not fail on the lookup: it substitutes the maximum key 2.2.0 as the
version used downstream, and on a supported platform with a well-formed
requirement it succeeds. -/
theorem claim9_missing_key_falls_back (requirement : Requirement) (sys : String)
    (detected_cuda : Option String) (hspecs : requirement.specs ≠ [])
    (hmiss : lookupTorch (selectedSpec requirement.specs).2 = none) :
    effectiveVersion (selectedSpec requirement.specs).2 = "2.2.0" ∧
    get_torch_install_args requirement sys detected_cuda =
      torchInstallArgsCore requirement (selectedSpec requirement.specs).1 "2.2.0" sys detected_cuda ∧
    (sys = "Linux" → requirement.specs.length ≤ 2 →
      ∃ args, get_torch_install_args requirement sys detected_cuda = .ok args) := by
  have heff : effectiveVersion (selectedSpec requirement.specs).2 = "2.2.0" := by
    unfold effectiveVersion
    rw [hmiss]
    show maxAvailableTorchVersion = "2.2.0"
    decide
  have hrw : get_torch_install_args requirement sys detected_cuda =
      torchInstallArgsCore requirement (selectedSpec requirement.specs).1 "2.2.0" sys detected_cuda := by
    rw [get_torch_install_args_cons requirement sys detected_cuda hspecs, heff]
  refine ⟨heff, hrw, ?_⟩
  intro hlin hlen
  rw [hrw, hlin]
  unfold torchInstallArgsCore
  rw [if_pos (Or.inl rfl)]
  obtain ⟨s, hsfx⟩ := get_hardware_suffix_true_ok detected_cuda "2.2.0"
    ⟨"0.16.2", ("11.8", "12.1")⟩ (by decide)
  rw [hsfx]
  have hsne : s ≠ "" := get_hardware_suffix_ne_empty hsfx
  have hadd : ∃ ts, add_hardware_suffix_to_torch requirement (some s) true detected_cuda = .ok ts := by
    unfold add_hardware_suffix_to_torch
    rw [addSuffixLoop_some detected_cuda true s hsne]
    cases hsp : requirement.specs with
    | nil => exact ⟨"", rfl⟩
    | cons p1 t1 =>
      cases t1 with
      | nil => exact ⟨_, rfl⟩
      | cons p2 t2 =>
        cases t2 with
        | nil => exact ⟨_, rfl⟩
        | cons p3 t3 =>
          rw [hsp] at hlen
          simp only [List.length_cons] at hlen
          omega
  obtain ⟨ts, hts⟩ := hadd
  show ∃ args,
    torchInstallTail requirement (selectedSpec requirement.specs).1 "2.2.0" s detected_cuda =
      Except.ok args
  unfold torchInstallTail
  rw [hts]
  exact ⟨_, rfl⟩

/-- C9 witness: version 1.13.0 is not a table key; on Linux the call
still resolves, using 2.2.0. -/
theorem claim9_witness :
    effectiveVersion (selectedSpec [("==", "1.13.0")]).2 = "2.2.0" ∧
    get_torch_install_args ⟨"torch", [("==", "1.13.0")]⟩ "Linux" none =
      torchInstallArgsCore ⟨"torch", [("==", "1.13.0")]⟩
        (selectedSpec [("==", "1.13.0")]).1 "2.2.0" "Linux" none ∧
    ("Linux" = "Linux" → ([("==", "1.13.0")] : List (String × String)).length ≤ 2 →
      ∃ args, get_torch_install_args ⟨"torch", [("==", "1.13.0")]⟩ "Linux" none = .ok args) :=
  claim9_missing_key_falls_back ⟨"torch", [("==", "1.13.0")]⟩ "Linux" none
    (by decide) (by decide)

/-- C10: the other-requirements component returned by parse_requirements has
no duplicates, consists exactly of the rendered non-torch requirements of
the input, and each such requirement occurs in it exactly once. -/
theorem claim10_parsed_others_nodup (requirements : List Requirement) (skip_torch : Bool)
    (tq : Option String) (others : List String)
    (h : parse_requirements requirements skip_torch = .ok (tq, others)) :
    others.Nodup ∧
    (∀ s, s ∈ others ↔ ∃ r, r ∈ requirements ∧ r.name ≠ "torch" ∧ reqStr r = s) ∧
    (∀ r, r ∈ requirements → r.name ≠ "torch" → others.count (reqStr r) = 1) := by
  rw [parse_requirements_eq] at h
  by_cases hc : (!skip_torch && !(strTruthy (parseLoop requirements (none, [])).1)) = true
  · rw [if_pos hc] at h
    cases h
  · rw [if_neg hc] at h
    injection h with h3
    injection h3 with h4 h5
    subst h4
    subst h5
    rw [parseLoop_snd]
    simp only [List.nil_append]
    refine ⟨List.nodup_dedup _, ?_, ?_⟩
    · intro s
      rw [List.mem_dedup, List.mem_map]
      constructor
      · rintro ⟨r, hrf, hrs⟩
        rw [List.mem_filter] at hrf
        exact ⟨r, hrf.1, by simpa using hrf.2, hrs⟩
      · rintro ⟨r, hr, hrn, hrs⟩
        exact ⟨r, List.mem_filter.mpr ⟨hr, by simpa using hrn⟩, hrs⟩
    · intro r hr hrn
      apply List.count_eq_one_of_mem (List.nodup_dedup _)
      rw [List.mem_dedup, List.mem_map]
      exact ⟨r, List.mem_filter.mpr ⟨hr, by simpa using hrn⟩, rfl⟩

/-- C10 witness: a torch and an onnx requirement; the others component is
exactly the rendered onnx requirement, once. -/
theorem claim10_witness :
    (["onnx>=1.8.1"] : List String).Nodup ∧
    (∀ s, s ∈ (["onnx>=1.8.1"] : List String) ↔
      ∃ r, r ∈ [(⟨"torch", [("==", "2.0.0")]⟩ : Requirement), ⟨"onnx", [(">=", "1.8.1")]⟩] ∧
        r.name ≠ "torch" ∧ reqStr r = s) ∧
    (∀ r, r ∈ [(⟨"torch", [("==", "2.0.0")]⟩ : Requirement), ⟨"onnx", [(">=", "1.8.1")]⟩] →
      r.name ≠ "torch" → (["onnx>=1.8.1"] : List String).count (reqStr r) = 1) :=
  claim10_parsed_others_nodup
    [⟨"torch", [("==", "2.0.0")]⟩, ⟨"onnx", [(">=", "1.8.1")]⟩] false
    (some "torch==2.0.0") ["onnx>=1.8.1"] (by rfl)

end AnomalibInstall
